import Mathlib

/-!
Shallow embedding of the lifedb git synchronization engine:
  * the native reset-first pull and the native stage/commit/push
    (modules/lifedb-git/ios/LifeDBGitModule.swift),
  * the TypeScript commit-first sync `commitAndSync` and the repo-root
    resolver `findGitRepoRoot` (src/services/gitService.ts),
  * the orchestrator `performSync` (src/services/gitSyncService.ts).
External git primitives (libgit2 calls, the native module seen from
TypeScript, credential stores) are modelled as oracles supplied to each
function; the control flow, message strings and classification logic are
translated from the source.
-/

namespace LifeDB

/-- Local repository state visible to the engine: the current HEAD
revision, the working-tree contents (opaque file/content pairs), and the
entries a `status` call would report (uncommitted changes). -/
structure RepoState where
  head : String
  workTree : List (String × String)
  statusEntries : List String
deriving DecidableEq, Repr

/-- Observable calls into destructive / remote git primitives made by the
native module, recorded as a trace. -/
inductive PrimCall where
  | fetch : PrimCall
  | reset (target : String) : PrimCall
  | commit : PrimCall
  | pushCall (refspec : String) : PrimCall
deriving DecidableEq, Repr

/-- Result dictionary returned by the native functions
(`["success": ..., "message": ..., "error": ...]`). -/
structure GitResult where
  success : Bool
  message : Option String := none
  error : Option String := none
deriving DecidableEq, Repr

/-- Oracle for the git primitives consumed by the native `pull`
(LifeDBGitModule.swift): repository open, HEAD lookup, remote lookup,
fetch, remote-tracking ref lookups, oid parsing, commit lookup, and hard
reset.  `resetRun t s` returns (success?, resulting repository state); on
failure the resulting state is unconstrained (a partially applied
checkout). -/
structure PullPrims where
  openOk : Bool
  openErr : String
  headOk : Bool
  hasRemote : Bool
  remoteLookupOk : Bool
  gitErr : String
  fetchOk : Bool
  refMain : Option String
  refMaster : Option String
  oidValid : String → Bool
  statusOk : Bool
  commitLookupOk : String → Bool
  resetRun : String → RepoState → Bool × RepoState

/-- The native `pull` (fetch + hard reset to remote) of
LifeDBGitModule.swift, lines 127-270, as a function from the primitive
oracle and the current repository state to the result dictionary, the
final repository state and the trace of destructive/remote primitive
calls.  Control flow and message strings follow the source: open, HEAD,
remote lookup, fetch, resolve origin/main then origin/master, short
circuit when already up to date, parse the remote oid, refuse when
uncommitted changes are reported, look up the remote commit, hard reset,
and on reset failure attempt a rollback reset to the original HEAD. -/
def pull (p : PullPrims) (s : RepoState) : GitResult × RepoState × List PrimCall :=
  if ¬ p.openOk then (⟨false, none, some p.openErr⟩, s, [])
  else if ¬ p.headOk then (⟨false, none, some "Failed to get current HEAD"⟩, s, [])
  else
    let localOidStr := s.head
    if ¬ p.hasRemote then (⟨false, none, some "No remote found"⟩, s, [])
    else if ¬ p.remoteLookupOk then
      (⟨false, none, some ("Failed to lookup remote: " ++ p.gitErr)⟩, s, [])
    else if ¬ p.fetchOk then
      (⟨false, none, some ("Fetch failed: " ++ p.gitErr)⟩, s, [PrimCall.fetch])
    else
      match p.refMain.orElse (fun _ => p.refMaster) with
      | none =>
          (⟨false, none, some "Could not find origin/main or origin/master"⟩, s,
            [PrimCall.fetch])
      | some remoteOidStr =>
          if localOidStr = remoteOidStr then
            (⟨true, some ("Already up to date (at " ++ localOidStr.take 7 ++ ")"), none⟩,
              s, [PrimCall.fetch])
          else if ¬ p.oidValid remoteOidStr then
            (⟨false, none, some ("Invalid remote OID: " ++ remoteOidStr)⟩, s,
              [PrimCall.fetch])
          else if p.statusOk ∧ s.statusEntries ≠ [] then
            (⟨false, none,
                some "You have local uncommitted changes. Commit or stash them first."⟩,
              s, [PrimCall.fetch])
          else if ¬ p.commitLookupOk remoteOidStr then
            (⟨false, none, some ("Failed to lookup remote commit: " ++ p.gitErr)⟩, s,
              [PrimCall.fetch])
          else
            let r := p.resetRun remoteOidStr s
            if r.1 then
              (⟨true,
                  some ("Updated from " ++ localOidStr.take 7 ++ " to " ++
                    remoteOidStr.take 7), none⟩,
                r.2, [PrimCall.fetch, PrimCall.reset remoteOidStr])
            else if p.commitLookupOk localOidStr then
              let r2 := p.resetRun localOidStr r.2
              (⟨false, none, some ("Reset failed: " ++ p.gitErr ++ ". Rolled back.")⟩,
                r2.2,
                [PrimCall.fetch, PrimCall.reset remoteOidStr, PrimCall.reset localOidStr])
            else
              (⟨false, none, some ("Reset failed: " ++ p.gitErr ++ ". Rolled back.")⟩,
                r.2, [PrimCall.fetch, PrimCall.reset remoteOidStr])

example :
    pull
      { openOk := true, openErr := "", headOk := true, hasRemote := true,
        remoteLookupOk := true, gitErr := "e", fetchOk := true,
        refMain := some "aaaaaaa1", refMaster := none,
        oidValid := fun _ => true, statusOk := true,
        commitLookupOk := fun _ => true,
        resetRun := fun t _ => (true, ⟨t, [], []⟩) }
      ⟨"aaaaaaa1", [("f", "x")], []⟩ =
    (⟨true, some "Already up to date (at aaaaaaa)", none⟩,
      ⟨"aaaaaaa1", [("f", "x")], []⟩, [PrimCall.fetch]) := by
  decide

/-- `hay.contains(needle)` on strings, as used by the Swift and JS source
(substring containment). -/
def strIncludes (hay needle : String) : Bool :=
  decide (needle.data <:+: hay.data)

/-- Character-wise lower-casing (structural, so that concrete instances
evaluate inside the kernel). -/
def lowerChars (l : List Char) : List Char :=
  l.map Char.toLower

/-- `hay.toLowerCase().includes(needle)` from the TypeScript source. -/
def lcIncludes (hay needle : String) : Bool :=
  decide (needle.data <:+: lowerChars hay.data)

/-- Oracle for the git primitives consumed by the native `push`
(LifeDBGitModule.swift): repository open, stage-all (`repo.add(path:
".")`), status, commit creation, remote lookup, HEAD/branch-name lookup
and the remote push itself.  `commitRun s` either yields the state after
the new commit or the failure message of the commit call. -/
structure PushPrims where
  openOk : Bool
  openErr : String
  addOk : Bool
  addErr : String
  statusOk : Bool
  commitRun : RepoState → Except String RepoState
  remoteLookupOk : Bool
  headOk : Bool
  branchNameOk : Bool
  branchName : String
  pushOk : Bool
  gitErr : String

/-- Tail of the native `push` after the optional commit: remote lookup,
HEAD/branch-name resolution, refspec construction
(`refs/heads/<branch>:refs/heads/<branch>`) and the remote push, with the
final message chosen by whether a commit was made. -/
def pushTail (p : PushPrims) (madeCommit : Bool) (s : RepoState) (tr : List PrimCall) :
    GitResult × RepoState × List PrimCall :=
  if ¬ p.remoteLookupOk then
    (⟨false, none, some ("Failed to lookup remote: " ++ p.gitErr)⟩, s, tr)
  else if ¬ p.headOk then
    (⟨false, none, some ("Failed to get HEAD: " ++ p.gitErr)⟩, s, tr)
  else if ¬ p.branchNameOk then
    (⟨false, none, some "Failed to get branch name"⟩, s, tr)
  else
    let refspec := "refs/heads/" ++ p.branchName ++ ":refs/heads/" ++ p.branchName
    if ¬ p.pushOk then
      (⟨false, none, some ("Push failed: " ++ p.gitErr)⟩, s,
        tr ++ [PrimCall.pushCall refspec])
    else if madeCommit then
      (⟨true, some "Pushed successfully", none⟩, s, tr ++ [PrimCall.pushCall refspec])
    else
      (⟨true, some "Nothing to push", none⟩, s, tr ++ [PrimCall.pushCall refspec])

/-- The native `push` (stage + commit if needed + unconditional remote
push) of LifeDBGitModule.swift, lines 273-402: stage all changes, check
status, create a commit only when changes were reported (tolerating a
"nothing to commit" failure), then always push the current branch to the
same-named remote branch. -/
def push (p : PushPrims) (s : RepoState) : GitResult × RepoState × List PrimCall :=
  if ¬ p.openOk then (⟨false, none, some p.openErr⟩, s, [])
  else if ¬ p.addOk then
    (⟨false, none, some ("Failed to stage files: " ++ p.addErr)⟩, s, [])
  else
    let hasChanges := p.statusOk && !s.statusEntries.isEmpty
    if hasChanges then
      match p.commitRun s with
      | Except.ok s2 => pushTail p true s2 [PrimCall.commit]
      | Except.error e =>
          if strIncludes e "nothing to commit" then pushTail p false s [PrimCall.commit]
          else (⟨false, none, some ("Failed to commit: " ++ e)⟩, s, [PrimCall.commit])
    else
      pushTail p false s []

example :
    push
      { openOk := true, openErr := "", addOk := true, addErr := "",
        statusOk := true, commitRun := fun s => Except.ok { s with head := "b" },
        remoteLookupOk := true, headOk := true, branchNameOk := true,
        branchName := "main", pushOk := true, gitErr := "e" }
      ⟨"a", [], []⟩ =
    (⟨true, some "Nothing to push", none⟩, ⟨"a", [], []⟩,
      [PrimCall.pushCall "refs/heads/main:refs/heads/main"]) := by
  decide

/-- JavaScript truthiness test for an optional string (`!x` is true for
`null`/`undefined` and for the empty string). -/
def isFalsy : Option String → Bool
  | none => true
  | some s => s.isEmpty

/-- The sync-result classification used by gitService.ts: the `reason`
field of `SyncResult`. -/
inductive SyncReason where
  | success : SyncReason
  | conflict : SyncReason
  | noNetwork : SyncReason
  | authFailed : SyncReason
  | unknown : SyncReason
deriving DecidableEq, Repr

/-- `SyncResult` of gitService.ts. -/
structure SyncResultTs where
  success : Bool
  message : String
  reason : Option SyncReason := none
deriving DecidableEq, Repr

/-- TypeScript-level calls into the native git module made by
`commitAndSync`. -/
inductive TsCall where
  | push : TsCall
  | pull : TsCall
deriving DecidableEq, Repr

/-- Oracle for `commitAndSync` (gitService.ts): the resolved repo root,
the stored credentials, and the behavior of the native `pull` and of each
successive native `push` call (`pushAt k` is the `k`-th push of the call;
`Except.error` models a thrown exception caught by the surrounding
try/catch). -/
structure CsPrims where
  repoRoot : Option String
  username : Option String
  token : Option String
  pushAt : Nat → Except String GitResult
  pullRes : Except String GitResult

/-- The catch block of `commitAndSync` (gitService.ts lines 165-171):
a thrown error whose text contains "network" maps to `no_network`,
anything else to `unknown`. -/
def csCatch (e : String) : SyncResultTs :=
  if lcIncludes e "network" then ⟨false, "Fail: no network", some SyncReason.noNetwork⟩
  else ⟨false, "Fail: " ++ e, some SyncReason.unknown⟩

/-- Classification of a failed native pull inside `commitAndSync`
(gitService.ts lines 137-150): substring checks on the lower-cased error
text, in source order network/connect, conflict/merge, auth/credential,
otherwise unknown with the detail preserved. -/
def classifyPullFailure (err : String) : SyncResultTs :=
  if lcIncludes err "network" || lcIncludes err "connect" then
    ⟨false, "Fail: no network", some SyncReason.noNetwork⟩
  else if lcIncludes err "conflict" || lcIncludes err "merge" then
    ⟨false, "Fail: conflict", some SyncReason.conflict⟩
  else if lcIncludes err "auth" || lcIncludes err "credential" then
    ⟨false, "Fail: auth failed", some SyncReason.authFailed⟩
  else ⟨false, "Fail: " ++ err, some SyncReason.unknown⟩

/-- Classification of a failed final native push inside `commitAndSync`
(gitService.ts lines 156-161): only the network/connect substrings are
consulted; everything else is unknown with the detail preserved. -/
def classifyPushFailure (err : String) : SyncResultTs :=
  if lcIncludes err "network" || lcIncludes err "connect" then
    ⟨false, "Fail: no network", some SyncReason.noNetwork⟩
  else ⟨false, "Fail: " ++ err, some SyncReason.unknown⟩

/-- `commitAndSync` (gitService.ts lines 102-172) over the oracle: resolve
the repo root (absence is a success), require credentials, then
native push (result logged but not checked), native pull (failure
classified and returned), and a second native push (failure classified and
returned).  Returns the `SyncResult` and the trace of native calls. -/
def commitAndSync (p : CsPrims) : SyncResultTs × List TsCall :=
  match p.repoRoot with
  | none => (⟨true, "Not in a git repo", some SyncReason.success⟩, [])
  | some _ =>
    if isFalsy p.username || isFalsy p.token then
      (⟨false, "Fail: auth failed", some SyncReason.authFailed⟩, [])
    else
      match p.pushAt 0 with
      | Except.error e => (csCatch e, [TsCall.push])
      | Except.ok _ =>
        match p.pullRes with
        | Except.error e => (csCatch e, [TsCall.push, TsCall.pull])
        | Except.ok pr =>
          if ¬ pr.success then
            (classifyPullFailure (pr.error.getD "Pull failed"),
              [TsCall.push, TsCall.pull])
          else
            match p.pushAt 1 with
            | Except.error e => (csCatch e, [TsCall.push, TsCall.pull, TsCall.push])
            | Except.ok sr =>
              if ¬ sr.success then
                (classifyPushFailure (sr.error.getD "Push failed"),
                  [TsCall.push, TsCall.pull, TsCall.push])
              else
                (⟨true, "Success", some SyncReason.success⟩,
                  [TsCall.push, TsCall.pull, TsCall.push])

/-- Number of native push calls in a TypeScript-level trace. -/
def countPush (tr : List TsCall) : Nat :=
  (tr.filter (fun c => c = TsCall.push)).length

example :
    commitAndSync
      { repoRoot := some "/r", username := some "u", token := some "t",
        pushAt := fun _ => Except.ok ⟨false, none, some "rejected"⟩,
        pullRes := Except.ok ⟨true, some "ok", none⟩ } =
    (⟨false, "Fail: rejected", some SyncReason.unknown⟩,
      [TsCall.push, TsCall.pull, TsCall.push]) := by
  decide

example : lcIncludes "Fetch failed: could not CONNECT to host" "connect" = true := by
  decide

/-- The `operation` tag of a `SyncLog` entry (gitSyncService.ts). -/
inductive LogOp where
  | fetch : LogOp
  | merge : LogOp
  | push : LogOp
  | error : LogOp
  | info : LogOp
deriving DecidableEq, Repr

/-- A `SyncLog` entry of gitSyncService.ts.  The wall-clock `timestamp`
field carries no logic and is omitted from the model. -/
structure SyncLog where
  operation : LogOp
  message : String
  success : Option Bool := none
deriving DecidableEq, Repr

/-- The `SyncResult` of gitSyncService.ts: a single success flag, the full
ordered log, and an optional error detail. -/
structure PsResult where
  success : Bool
  logs : List SyncLog
  error : Option String := none
deriving DecidableEq, Repr

/-- Native-module calls made by `performSync`. -/
inductive PsCall where
  | isRepo : PsCall
  | cloneCall : PsCall
  | pull : PsCall
  | push : PsCall
deriving DecidableEq, Repr

/-- Oracle for `performSync` (gitSyncService.ts): stored token, username
and selected repository (each read may throw), and the behavior of the
native `isRepository`, `clone`, `pull` and `push` calls
(`Except.error` models a thrown exception). -/
structure PsPrims where
  token : Except String (Option String)
  username : Except String (Option String)
  selectedRepo : Except String (Option String)
  isRepo : Except String Bool
  cloneRes : Except String GitResult
  pullRes : Except String GitResult
  pushRes : Except String GitResult

/-- JavaScript string interpolation of a possibly-undefined value
(template literals render `undefined` as the text "undefined"). -/
def optStr : Option String → String
  | none => "undefined"
  | some s => s

/-- The body of `performSync` (gitSyncService.ts lines 64-138), i.e. the
code inside the try block: prerequisite reads, authentication and
repo-selection checks, clone when the repository is absent, otherwise
native pull then native push, accumulating the ordered log.  A thrown
exception escapes as `Except.error` carrying the pending message together
with the log and trace accumulated so far (for the catch block). -/
def performSyncBody (p : PsPrims) :
    Except (String × List SyncLog × List PsCall) (PsResult × List PsCall) :=
  match p.token with
  | Except.error e => Except.error (e, [], [])
  | Except.ok token =>
  match p.username with
  | Except.error e => Except.error (e, [], [])
  | Except.ok username =>
  match p.selectedRepo with
  | Except.error e => Except.error (e, [], [])
  | Except.ok selectedRepo =>
  if isFalsy token || isFalsy username then
    Except.ok
      ({ success := false,
         logs := [⟨LogOp.error, "Not authenticated with GitHub", some false⟩],
         error := some "Not authenticated with GitHub" }, [])
  else
    match selectedRepo with
    | none =>
        Except.ok
          ({ success := false,
             logs := [⟨LogOp.error, "No repository selected", some false⟩],
             error := some "No repository selected" }, [])
    | some srep =>
      if srep.isEmpty then
        Except.ok
          ({ success := false,
             logs := [⟨LogOp.error, "No repository selected", some false⟩],
             error := some "No repository selected" }, [])
      else
        match p.isRepo with
        | Except.error e => Except.error (e, [], [PsCall.isRepo])
        | Except.ok isRepo =>
          if ¬ isRepo then
            let logs1 : List SyncLog :=
              [⟨LogOp.info, "Repository not cloned. Cloning " ++ srep ++ "...", none⟩]
            match p.cloneRes with
            | Except.error e => Except.error (e, logs1, [PsCall.isRepo, PsCall.cloneCall])
            | Except.ok cr =>
              if ¬ cr.success then
                Except.ok
                  ({ success := false,
                     logs := logs1 ++
                       [⟨LogOp.error, "Clone failed: " ++ optStr cr.error, some false⟩],
                     error := cr.error }, [PsCall.isRepo, PsCall.cloneCall])
              else
                Except.ok
                  ({ success := true,
                     logs := logs1 ++
                       [⟨LogOp.info, "Repository cloned successfully", some true⟩],
                     error := none }, [PsCall.isRepo, PsCall.cloneCall])
          else
            let logs1 : List SyncLog :=
              [⟨LogOp.fetch, "Fetching and updating from remote...", none⟩]
            match p.pullRes with
            | Except.error e => Except.error (e, logs1, [PsCall.isRepo, PsCall.pull])
            | Except.ok pr =>
              if ¬ pr.success then
                Except.ok
                  ({ success := false,
                     logs := logs1 ++
                       [⟨LogOp.error, "Pull failed: " ++ optStr pr.error, some false⟩],
                     error := pr.error }, [PsCall.isRepo, PsCall.pull])
              else
                let logs2 := logs1 ++ [⟨LogOp.merge, pr.message.getD "Pull complete", some true⟩]
                match p.pushRes with
                | Except.error e =>
                    Except.error (e, logs2, [PsCall.isRepo, PsCall.pull, PsCall.push])
                | Except.ok sr =>
                  if ¬ sr.success then
                    Except.ok
                      ({ success := false,
                         logs := logs2 ++
                           [⟨LogOp.error, "Push failed: " ++ optStr sr.error, some false⟩],
                         error := sr.error }, [PsCall.isRepo, PsCall.pull, PsCall.push])
                  else
                    let logs3 :=
                      if sr.message ≠ some "Nothing to push" then
                        logs2 ++ [⟨LogOp.push, sr.message.getD "Pushed successfully", some true⟩]
                      else logs2
                    Except.ok
                      ({ success := true,
                         logs := logs3 ++
                           [⟨LogOp.info, "Sync completed successfully", some true⟩],
                         error := none }, [PsCall.isRepo, PsCall.pull, PsCall.push])

/-- `performSync` (gitSyncService.ts lines 56-144): the body wrapped in
the try/catch, which turns any thrown exception into a returned
`SyncResult` carrying the log accumulated so far plus a final error
entry.  Returns the result and the trace of native-module calls. -/
def performSyncRun (p : PsPrims) : PsResult × List PsCall :=
  match performSyncBody p with
  | Except.ok (r, tr) => (r, tr)
  | Except.error (e, logs, tr) =>
      ({ success := false,
         logs := logs ++ [⟨LogOp.error, "Unexpected error: " ++ e, some false⟩],
         error := some e }, tr)

example :
    performSyncRun
      { token := Except.ok (some "t"), username := Except.ok (some "u"),
        selectedRepo := Except.ok (some "u/r"), isRepo := Except.ok true,
        cloneRes := Except.ok ⟨true, none, none⟩,
        pullRes := Except.error "boom",
        pushRes := Except.ok ⟨true, none, none⟩ } =
    ({ success := false,
       logs := [⟨LogOp.fetch, "Fetching and updating from remote...", none⟩,
                ⟨LogOp.error, "Unexpected error: boom", some false⟩],
       error := some "boom" }, [PsCall.isRepo, PsCall.pull]) := by
  decide

/-- JavaScript `path.split('/')` on the character list, structurally. -/
def splitAux (sep : Char) : List Char → List Char → List String
  | [], acc => [String.mk acc.reverse]
  | c :: cs, acc =>
      if c = sep then String.mk acc.reverse :: splitAux sep cs []
      else splitAux sep cs (c :: acc)

/-- `relativePath.split('/').filter(Boolean)` from `findGitRepoRoot`
(gitService.ts line 25): path segments with empty strings removed. -/
def splitPath (path : String) : List String :=
  (splitAux '/' path.data []).filter (fun s => !s.isEmpty)

/-- `'/' + parts.slice(0, i).join('/')` from `findGitRepoRoot`: the
returned repo-root string for a candidate prefix. -/
def renderRoot (segs : List String) : String :=
  "/" ++ String.intercalate "/" segs

/-- The descending candidate loop of `findGitRepoRoot` (gitService.ts
lines 28-37): for `i` from the argument down to `0`, test whether the
directory at the prefix `parts.take i` contains a `.git` directory
(the oracle `g`), returning the rendered root at the first (deepest)
hit. -/
def findFrom (g : List String → Bool) (parts : List String) : Nat → Option String
  | 0 => if g [] then some (renderRoot []) else none
  | i + 1 =>
      if g (parts.take (i + 1)) then some (renderRoot (parts.take (i + 1)))
      else findFrom g parts i

/-- `findGitRepoRoot` (gitService.ts lines 23-40) over an oracle
`g : List String → Bool` telling whether `Directory(baseDir, segs, '.git')`
exists: split the path into non-empty segments and walk the candidate
prefixes from the full path down to the base directory, returning the
first hit or `none`. -/
def findGitRepoRoot (g : List String → Bool) (path : String) : Option String :=
  findFrom g (splitPath path) (splitPath path).length

example :
    findGitRepoRoot (fun l => l = ["a"]) "a/b/c.md" = some "/a" := by
  decide

example :
    findGitRepoRoot (fun l => l = ["a"] ∨ l = ["a", "b"]) "a/b/c.md" = some "/a/b" := by
  decide

example : findGitRepoRoot (fun _ => false) "/a//b/" = none := by
  decide

/-- Claim C3: if the local current revision equals the fetched remote
revision, the native pull short-circuits to the up-to-date success with no
further writes to the working tree (the final state is the initial state
and no reset appears in the trace), and a second call with no intervening
change returns the same up-to-date outcome and again performs no write. -/
theorem pull_upToDate_idempotent (p : PullPrims) (s : RepoState) (r : String)
    (hOpen : p.openOk = true) (hHead : p.headOk = true)
    (hRemote : p.hasRemote = true) (hLookup : p.remoteLookupOk = true)
    (hFetch : p.fetchOk = true)
    (hRef : p.refMain.orElse (fun _ => p.refMaster) = some r)
    (hEq : s.head = r) :
    pull p s =
      (⟨true, some ("Already up to date (at " ++ s.head.take 7 ++ ")"), none⟩, s,
        [PrimCall.fetch]) ∧
    (∀ t, PrimCall.reset t ∉ (pull p s).2.2) ∧
    pull p ((pull p s).2.1) = pull p s := by
  have h1 : pull p s =
      (⟨true, some ("Already up to date (at " ++ s.head.take 7 ++ ")"), none⟩, s,
        [PrimCall.fetch]) := by
    simp only [pull, hOpen, hHead, hRemote, hLookup, hFetch, hRef, hEq, not_true,
      if_false, ite_false, Bool.not_true]
    simp [hEq]
  refine ⟨h1, ?_, ?_⟩
  · intro t
    rw [h1]
    simp
  · rw [h1]
    exact h1

/-- Witness for `pull_upToDate_idempotent` at a concrete oracle and
state. -/
theorem pull_upToDate_idempotent_witness :
    pull
      { openOk := true, openErr := "", headOk := true, hasRemote := true,
        remoteLookupOk := true, gitErr := "e", fetchOk := true,
        refMain := some "aaaaaaa1", refMaster := none,
        oidValid := fun _ => true, statusOk := true,
        commitLookupOk := fun _ => true,
        resetRun := fun t _ => (true, ⟨t, [], []⟩) }
      ⟨"aaaaaaa1", [("f", "x")], []⟩ =
      (⟨true, some "Already up to date (at aaaaaaa)", none⟩,
        ⟨"aaaaaaa1", [("f", "x")], []⟩, [PrimCall.fetch]) :=
  (pull_upToDate_idempotent
    { openOk := true, openErr := "", headOk := true, hasRemote := true,
      remoteLookupOk := true, gitErr := "e", fetchOk := true,
      refMain := some "aaaaaaa1", refMaster := none,
      oidValid := fun _ => true, statusOk := true,
      commitLookupOk := fun _ => true,
      resetRun := fun t _ => (true, ⟨t, [], []⟩) }
    ⟨"aaaaaaa1", [("f", "x")], []⟩ "aaaaaaa1"
    rfl rfl rfl rfl rfl rfl rfl).1

/-- Claim C4: resolving the remote branch revision tries `origin/main`
first and falls back to `origin/master`, first match winning: when
`origin/main` resolves, its revision is the reset target regardless of
`origin/master`; when only `origin/master` resolves, its revision is the
reset target; when neither resolves, the pull fails with the
"Could not find origin/main or origin/master" error. -/
theorem pull_branch_fallback (p : PullPrims) (s : RepoState)
    (hOpen : p.openOk = true) (hHead : p.headOk = true)
    (hRemote : p.hasRemote = true) (hLookup : p.remoteLookupOk = true)
    (hFetch : p.fetchOk = true) :
    (∀ a, p.refMain = some a → s.head ≠ a → p.oidValid a = true →
      s.statusEntries = [] → p.commitLookupOk a = true →
      ((pull p s).2.2)[1]? = some (PrimCall.reset a)) ∧
    (∀ b, p.refMain = none → p.refMaster = some b → s.head ≠ b →
      p.oidValid b = true → s.statusEntries = [] → p.commitLookupOk b = true →
      ((pull p s).2.2)[1]? = some (PrimCall.reset b)) ∧
    (p.refMain = none → p.refMaster = none →
      pull p s =
        (⟨false, none, some "Could not find origin/main or origin/master"⟩, s,
          [PrimCall.fetch])) := by
  refine ⟨?_, ?_, ?_⟩
  · intro a hMain hNe hValid hStat hCl
    have hRef : p.refMain.orElse (fun _ => p.refMaster) = some a := by
      simp [hMain, Option.orElse]
    simp only [pull, hOpen, hHead, hRemote, hLookup, hFetch, hRef, hValid, hStat, hCl,
      Bool.not_true, if_neg, ite_false]
    by_cases hr : (p.resetRun a s).1 = true <;>
      by_cases hcl2 : p.commitLookupOk s.head = true <;>
        simp [hr, hcl2, hNe]
  · intro b hMain hMaster hNe hValid hStat hCl
    have hRef : p.refMain.orElse (fun _ => p.refMaster) = some b := by
      simp [hMain, hMaster, Option.orElse]
    simp only [pull, hOpen, hHead, hRemote, hLookup, hFetch, hRef, hValid, hStat, hCl,
      Bool.not_true, if_neg, ite_false]
    by_cases hr : (p.resetRun b s).1 = true <;>
      by_cases hcl2 : p.commitLookupOk s.head = true <;>
        simp [hr, hcl2, hNe]
  · intro hMain hMaster
    have hRef : p.refMain.orElse (fun _ => p.refMaster) = none := by
      simp [hMain, hMaster, Option.orElse]
    simp [pull, hOpen, hHead, hRemote, hLookup, hFetch, hRef]

/-- Witness for `pull_branch_fallback`: with both remote branches present
the reset target is the `origin/main` revision; with only `origin/master`
present it is the `origin/master` revision. -/
theorem pull_branch_fallback_witness :
    ((pull
        { openOk := true, openErr := "", headOk := true, hasRemote := true,
          remoteLookupOk := true, gitErr := "e", fetchOk := true,
          refMain := some "mmmmmmm1", refMaster := some "sssssss2",
          oidValid := fun _ => true, statusOk := true,
          commitLookupOk := fun _ => true,
          resetRun := fun t _ => (true, ⟨t, [], []⟩) }
        ⟨"aaaaaaa1", [], []⟩).2.2)[1]? = some (PrimCall.reset "mmmmmmm1") ∧
    ((pull
        { openOk := true, openErr := "", headOk := true, hasRemote := true,
          remoteLookupOk := true, gitErr := "e", fetchOk := true,
          refMain := none, refMaster := some "sssssss2",
          oidValid := fun _ => true, statusOk := true,
          commitLookupOk := fun _ => true,
          resetRun := fun t _ => (true, ⟨t, [], []⟩) }
        ⟨"aaaaaaa1", [], []⟩).2.2)[1]? = some (PrimCall.reset "sssssss2") :=
  ⟨(pull_branch_fallback
      { openOk := true, openErr := "", headOk := true, hasRemote := true,
        remoteLookupOk := true, gitErr := "e", fetchOk := true,
        refMain := some "mmmmmmm1", refMaster := some "sssssss2",
        oidValid := fun _ => true, statusOk := true,
        commitLookupOk := fun _ => true,
        resetRun := fun t _ => (true, ⟨t, [], []⟩) }
      ⟨"aaaaaaa1", [], []⟩ rfl rfl rfl rfl rfl).1
      "mmmmmmm1" rfl (by decide) rfl rfl rfl,
    (pull_branch_fallback
      { openOk := true, openErr := "", headOk := true, hasRemote := true,
        remoteLookupOk := true, gitErr := "e", fetchOk := true,
        refMain := none, refMaster := some "sssssss2",
        oidValid := fun _ => true, statusOk := true,
        commitLookupOk := fun _ => true,
        resetRun := fun t _ => (true, ⟨t, [], []⟩) }
      ⟨"aaaaaaa1", [], []⟩ rfl rfl rfl rfl rfl).2.1
      "sssssss2" rfl rfl (by decide) rfl rfl rfl⟩

/-- Claim C2: if the hard reset to the remote revision fails during a
pull, the engine attempts a rollback reset to the local revision recorded
before the reset attempt (the rollback reset appears in the trace), the
call reports failure, and — provided a successful hard reset checks out
its target, and the rollback reset succeeds — the current revision
afterwards is the revision that was current before the failed attempt. -/
theorem pull_rollback_on_reset_failure (p : PullPrims) (s : RepoState) (r : String)
    (hOpen : p.openOk = true) (hHead : p.headOk = true)
    (hRemote : p.hasRemote = true) (hLookup : p.remoteLookupOk = true)
    (hFetch : p.fetchOk = true)
    (hRef : p.refMain.orElse (fun _ => p.refMaster) = some r)
    (hNe : s.head ≠ r) (hValid : p.oidValid r = true)
    (hStat : s.statusEntries = []) (hCl : p.commitLookupOk r = true)
    (hFail : (p.resetRun r s).1 = false)
    (hClOrig : p.commitLookupOk s.head = true)
    (hsem : ∀ t st, (p.resetRun t st).1 = true → ((p.resetRun t st).2).head = t) :
    PrimCall.reset s.head ∈ (pull p s).2.2 ∧
    (pull p s).1.success = false ∧
    ((p.resetRun s.head (p.resetRun r s).2).1 = true →
      ((pull p s).2.1).head = s.head) := by
  have hres : pull p s =
      (⟨false, none, some ("Reset failed: " ++ p.gitErr ++ ". Rolled back.")⟩,
        (p.resetRun s.head (p.resetRun r s).2).2,
        [PrimCall.fetch, PrimCall.reset r, PrimCall.reset s.head]) := by
    simp only [pull, hOpen, hHead, hRemote, hLookup, hFetch, hRef, hValid, hStat,
      hCl, hClOrig, hFail, Bool.not_true, ite_false]
    simp [hNe, hFail, hClOrig]
  refine ⟨?_, ?_, ?_⟩
  · rw [hres]; simp
  · rw [hres]
  · intro hOk
    rw [hres]
    exact hsem s.head (p.resetRun r s).2 hOk

/-- Witness for `pull_rollback_on_reset_failure` at a concrete oracle
whose reset fails on the remote revision and succeeds on the original
one. -/
theorem pull_rollback_on_reset_failure_witness :
    PrimCall.reset "aaaaaaa1" ∈
      (pull
        { openOk := true, openErr := "", headOk := true, hasRemote := true,
          remoteLookupOk := true, gitErr := "disk full", fetchOk := true,
          refMain := some "bbbbbbb2", refMaster := none,
          oidValid := fun _ => true, statusOk := true,
          commitLookupOk := fun _ => true,
          resetRun := fun t _ => (decide (t = "aaaaaaa1"), ⟨t, [], []⟩) }
        ⟨"aaaaaaa1", [], []⟩).2.2 ∧
    ((pull
        { openOk := true, openErr := "", headOk := true, hasRemote := true,
          remoteLookupOk := true, gitErr := "disk full", fetchOk := true,
          refMain := some "bbbbbbb2", refMaster := none,
          oidValid := fun _ => true, statusOk := true,
          commitLookupOk := fun _ => true,
          resetRun := fun t _ => (decide (t = "aaaaaaa1"), ⟨t, [], []⟩) }
        ⟨"aaaaaaa1", [], []⟩).2.1).head = "aaaaaaa1" := by
  have h := pull_rollback_on_reset_failure
    { openOk := true, openErr := "", headOk := true, hasRemote := true,
      remoteLookupOk := true, gitErr := "disk full", fetchOk := true,
      refMain := some "bbbbbbb2", refMaster := none,
      oidValid := fun _ => true, statusOk := true,
      commitLookupOk := fun _ => true,
      resetRun := fun t _ => (decide (t = "aaaaaaa1"), ⟨t, [], []⟩) }
    ⟨"aaaaaaa1", [], []⟩ "bbbbbbb2"
    rfl rfl rfl rfl rfl rfl (by decide) rfl rfl rfl (by decide) rfl
    (fun t st _h => rfl)
  exact ⟨h.1, h.2.2 (by decide)⟩

/-- Counterexample to claim C1 as stated: with uncommitted local changes
and a local revision differing from the fetched remote revision, the
native pull aborts before any reset (working tree unchanged) with the
message "You have local uncommitted changes. Commit or stash them
first." — but the engine's classifier maps that text to `unknown`, not to
the `conflict` kind, because it contains neither "conflict" nor
"merge". -/
theorem pull_conflict_unknown_classification_cex :
    pull
      { openOk := true, openErr := "", headOk := true, hasRemote := true,
        remoteLookupOk := true, gitErr := "e", fetchOk := true,
        refMain := some "bbbbbbb2", refMaster := none,
        oidValid := fun _ => true, statusOk := true,
        commitLookupOk := fun _ => true,
        resetRun := fun t _ => (true, ⟨t, [], []⟩) }
      ⟨"aaaaaaa1", [("note.md", "edited")], ["note.md"]⟩ =
      (⟨false, none,
          some "You have local uncommitted changes. Commit or stash them first."⟩,
        ⟨"aaaaaaa1", [("note.md", "edited")], ["note.md"]⟩, [PrimCall.fetch]) ∧
    (commitAndSync
      { repoRoot := some "/r", username := some "u", token := some "t",
        pushAt := fun _ => Except.ok ⟨true, some "Nothing to push", none⟩,
        pullRes := Except.ok
          ⟨false, none,
            some "You have local uncommitted changes. Commit or stash them first."⟩
        }).1.reason = some SyncReason.unknown ∧
    SyncReason.unknown ≠ SyncReason.conflict := by
  refine ⟨by decide, by decide, by decide⟩

/-- Claim C1 (amended): when uncommitted local changes exist and the
local revision differs from the fetched remote revision, the native pull
returns a failure carrying the uncommitted-changes message, the working
tree is byte-for-byte unchanged and no hard reset is attempted; the
sync layer's substring classifier maps this failure to `unknown` (not
`conflict`). -/
theorem pull_uncommitted_changes_guard (p : PullPrims) (s : RepoState) (r : String)
    (hOpen : p.openOk = true) (hHead : p.headOk = true)
    (hRemote : p.hasRemote = true) (hLookup : p.remoteLookupOk = true)
    (hFetch : p.fetchOk = true)
    (hRef : p.refMain.orElse (fun _ => p.refMaster) = some r)
    (hNe : s.head ≠ r) (hValid : p.oidValid r = true)
    (hStatusOk : p.statusOk = true) (hDirty : s.statusEntries ≠ []) :
    pull p s =
      (⟨false, none,
          some "You have local uncommitted changes. Commit or stash them first."⟩,
        s, [PrimCall.fetch]) ∧
    (∀ q : CsPrims, ∀ root r0,
      q.repoRoot = some root → isFalsy q.username = false → isFalsy q.token = false →
      q.pushAt 0 = Except.ok r0 →
      q.pullRes = Except.ok (pull p s).1 →
      (commitAndSync q).1.reason = some SyncReason.unknown) := by
  have hres : pull p s =
      (⟨false, none,
          some "You have local uncommitted changes. Commit or stash them first."⟩,
        s, [PrimCall.fetch]) := by
    simp only [pull, hOpen, hHead, hRemote, hLookup, hFetch, hRef, hValid, hStatusOk,
      Bool.not_true, ite_false]
    simp [hNe, hDirty]
  refine ⟨hres, ?_⟩
  intro q root r0 hRoot hUser hTok hPush0 hPull
  rw [hres] at hPull
  simp only [commitAndSync, hRoot, hUser, hTok, hPush0, hPull]
  simp
  decide

/-- Witness for `pull_uncommitted_changes_guard` at a concrete dirty
state and oracle. -/
theorem pull_uncommitted_changes_guard_witness :
    pull
      { openOk := true, openErr := "", headOk := true, hasRemote := true,
        remoteLookupOk := true, gitErr := "e", fetchOk := true,
        refMain := none, refMaster := some "ccccccc3",
        oidValid := fun _ => true, statusOk := true,
        commitLookupOk := fun _ => true,
        resetRun := fun t _ => (true, ⟨t, [], []⟩) }
      ⟨"aaaaaaa1", [("a.md", "x")], ["a.md"]⟩ =
      (⟨false, none,
          some "You have local uncommitted changes. Commit or stash them first."⟩,
        ⟨"aaaaaaa1", [("a.md", "x")], ["a.md"]⟩, [PrimCall.fetch]) :=
  (pull_uncommitted_changes_guard
    { openOk := true, openErr := "", headOk := true, hasRemote := true,
      remoteLookupOk := true, gitErr := "e", fetchOk := true,
      refMain := none, refMaster := some "ccccccc3",
      oidValid := fun _ => true, statusOk := true,
      commitLookupOk := fun _ => true,
      resetRun := fun t _ => (true, ⟨t, [], []⟩) }
    ⟨"aaaaaaa1", [("a.md", "x")], ["a.md"]⟩ "ccccccc3"
    rfl rfl rfl rfl rfl rfl (by decide) rfl rfl (by decide)).1

/-- Claim C5: `commitAndSync` attempts the native push at most twice per
call, for every behavior of the underlying git primitives; and in the
always-rejected-push harness (with the pull succeeding) exactly two push
attempts are observed. -/
theorem commitAndSync_push_bound (p : CsPrims) :
    countPush (commitAndSync p).2 ≤ 2 ∧
    (∀ root pr, p.repoRoot = some root → isFalsy p.username = false →
      isFalsy p.token = false →
      (∀ k, ∃ e, p.pushAt k = Except.ok e ∧ e.success = false) →
      p.pullRes = Except.ok pr → pr.success = true →
      countPush (commitAndSync p).2 = 2) := by
  constructor
  · unfold commitAndSync
    repeat' split
    all_goals simp [countPush]
  · intro root pr hRoot hU hT hPush hPull hSucc
    obtain ⟨e0, h0, _⟩ := hPush 0
    obtain ⟨e1, h1, hs1⟩ := hPush 1
    simp only [commitAndSync, hRoot, hU, hT, h0, hPull, h1, hSucc, hs1]
    simp [countPush]

/-- Witness for `commitAndSync_push_bound`: a harness whose every push is
rejected and whose pull succeeds observes exactly two push attempts. -/
theorem commitAndSync_push_bound_witness :
    countPush
      (commitAndSync
        { repoRoot := some "/r", username := some "u", token := some "t",
          pushAt := fun _ => Except.ok ⟨false, none, some "rejected"⟩,
          pullRes := Except.ok ⟨true, some "ok", none⟩ }).2 = 2 :=
  (commitAndSync_push_bound
    { repoRoot := some "/r", username := some "u", token := some "t",
      pushAt := fun _ => Except.ok ⟨false, none, some "rejected"⟩,
      pullRes := Except.ok ⟨true, some "ok", none⟩ }).2
    "/r" ⟨true, some "ok", none⟩ rfl rfl rfl
    (fun _ => ⟨⟨false, none, some "rejected"⟩, rfl, rfl⟩) rfl rfl

/-- Counterexample to claim C6 as stated: a final push failure whose
error text contains "auth" is classified `unknown` by `commitAndSync`,
not `auth_failed` — the auth/credential substring check is applied only
to pull failures. -/
theorem push_auth_classification_cex :
    (commitAndSync
      { repoRoot := some "/r", username := some "u", token := some "t",
        pushAt := fun k =>
          if k = 0 then Except.ok ⟨true, some "Pushed successfully", none⟩
          else Except.ok ⟨false, none, some "remote: authentication failed for user"⟩,
        pullRes := Except.ok ⟨true, some "ok", none⟩ }).1 =
      ⟨false, "Fail: remote: authentication failed for user", some SyncReason.unknown⟩ ∧
    SyncReason.unknown ≠ SyncReason.authFailed := by
  exact ⟨by decide, by decide⟩

/-- Claim C6 (amended): a push failure with unstructured error text is
classified by substring inspection of the text: network/connect maps to
`no_network`; every other text — including auth/credential text — maps to
`unknown` with the original detail preserved in the message.  (Only pull
failures get the auth/credential and conflict/merge checks.) -/
theorem commitAndSync_push_failure_classification (p : CsPrims) (root : String)
    (r0 pr : GitResult) (e : String)
    (hRoot : p.repoRoot = some root) (hU : isFalsy p.username = false)
    (hT : isFalsy p.token = false) (h0 : p.pushAt 0 = Except.ok r0)
    (hPull : p.pullRes = Except.ok pr) (hPrS : pr.success = true)
    (h1 : p.pushAt 1 = Except.ok ⟨false, none, some e⟩) :
    ((lcIncludes e "network" || lcIncludes e "connect") = true →
      (commitAndSync p).1 = ⟨false, "Fail: no network", some SyncReason.noNetwork⟩) ∧
    ((lcIncludes e "network" || lcIncludes e "connect") = false →
      (commitAndSync p).1 = ⟨false, "Fail: " ++ e, some SyncReason.unknown⟩) := by
  have hstep : (commitAndSync p).1 = classifyPushFailure e := by
    simp only [commitAndSync, hRoot, hU, hT, h0, hPull, h1, hPrS]
    simp
  constructor
  · intro hc
    rw [hstep]
    simp [classifyPushFailure, hc]
  · intro hc
    rw [hstep]
    simp [classifyPushFailure, hc]

/-- Witness for `commitAndSync_push_failure_classification`: a push
failure mentioning "connection" is classified `no_network`. -/
theorem commitAndSync_push_failure_classification_witness :
    (commitAndSync
      { repoRoot := some "/r", username := some "u", token := some "t",
        pushAt := fun k =>
          if k = 0 then Except.ok ⟨true, some "Pushed successfully", none⟩
          else Except.ok ⟨false, none, some "connection refused"⟩,
        pullRes := Except.ok ⟨true, some "ok", none⟩ }).1 =
      ⟨false, "Fail: no network", some SyncReason.noNetwork⟩ :=
  (commitAndSync_push_failure_classification
    { repoRoot := some "/r", username := some "u", token := some "t",
      pushAt := fun k =>
        if k = 0 then Except.ok ⟨true, some "Pushed successfully", none⟩
        else Except.ok ⟨false, none, some "connection refused"⟩,
      pullRes := Except.ok ⟨true, some "ok", none⟩ }
    "/r" ⟨true, some "Pushed successfully", none⟩ ⟨true, some "ok", none⟩
    "connection refused" rfl rfl rfl rfl rfl rfl rfl).1 (by decide)

/-- Counterexample to claim C7 as stated: in `commitAndSync` the first
native push (the commit step) returns a failure, yet the pull and a
second push are still invoked afterwards — a failed step is
skipped-and-continued. -/
theorem step_failure_continue_cex :
    (({ repoRoot := some "/r", username := some "u", token := some "t",
        pushAt := fun k =>
          Except.ok
            (if k = 0 then ⟨false, none, some "commit failed"⟩
             else ⟨true, some "Pushed successfully", none⟩),
        pullRes := Except.ok ⟨true, some "ok", none⟩ } : CsPrims).pushAt 0 =
      Except.ok ⟨false, none, some "commit failed"⟩) ∧
    (commitAndSync
      { repoRoot := some "/r", username := some "u", token := some "t",
        pushAt := fun k =>
          Except.ok
            (if k = 0 then ⟨false, none, some "commit failed"⟩
             else ⟨true, some "Pushed successfully", none⟩),
        pullRes := Except.ok ⟨true, some "ok", none⟩ }).2 =
      [TsCall.push, TsCall.pull, TsCall.push] := by
  exact ⟨rfl, by decide⟩

/-- Claim C7 (amended): a failure of the pull step or of the final push
aborts the remaining steps — in `commitAndSync` a failed pull means the
second push is never invoked, and in `performSync` a failed pull means
the push is never invoked — but the failure of the initial
commit-and-push step of `commitAndSync` is logged and ignored, execution
continuing with the pull (see `step_failure_continue_cex`). -/
theorem sync_pull_failure_aborts (p : CsPrims) (q : PsPrims) :
    (∀ root r0 pr, p.repoRoot = some root → isFalsy p.username = false →
      isFalsy p.token = false → p.pushAt 0 = Except.ok r0 →
      p.pullRes = Except.ok pr → pr.success = false →
      (commitAndSync p).2 = [TsCall.push, TsCall.pull]) ∧
    (∀ tok usr srep pr, q.token = Except.ok (some tok) →
      q.username = Except.ok (some usr) → isFalsy (some tok) = false →
      isFalsy (some usr) = false → q.selectedRepo = Except.ok (some srep) →
      srep.isEmpty = false → q.isRepo = Except.ok true →
      q.pullRes = Except.ok pr → pr.success = false →
      (performSyncRun q).2 = [PsCall.isRepo, PsCall.pull]) := by
  constructor
  · intro root r0 pr hRoot hU hT h0 hPull hPrS
    simp only [commitAndSync, hRoot, hU, hT, h0, hPull, hPrS]
    simp
  · intro tok usr srep pr hTok hUsr hFT hFU hSel hSe hIr hPull hPrS
    simp only [performSyncRun, performSyncBody, hTok, hUsr, hFT, hFU, hSel, hSe, hIr,
      hPull, hPrS]
    simp

/-- Witness for `sync_pull_failure_aborts` at concrete oracles whose pull
fails. -/
theorem sync_pull_failure_aborts_witness :
    (commitAndSync
      { repoRoot := some "/r", username := some "u", token := some "t",
        pushAt := fun _ => Except.ok ⟨true, some "Pushed successfully", none⟩,
        pullRes := Except.ok ⟨false, none, some "Fetch failed: timeout"⟩ }).2 =
      [TsCall.push, TsCall.pull] ∧
    (performSyncRun
      { token := Except.ok (some "t"), username := Except.ok (some "u"),
        selectedRepo := Except.ok (some "u/r"), isRepo := Except.ok true,
        cloneRes := Except.ok ⟨true, none, none⟩,
        pullRes := Except.ok ⟨false, none, some "Fetch failed: timeout"⟩,
        pushRes := Except.ok ⟨true, none, none⟩ }).2 =
      [PsCall.isRepo, PsCall.pull] :=
  ⟨(sync_pull_failure_aborts
      { repoRoot := some "/r", username := some "u", token := some "t",
        pushAt := fun _ => Except.ok ⟨true, some "Pushed successfully", none⟩,
        pullRes := Except.ok ⟨false, none, some "Fetch failed: timeout"⟩ }
      { token := Except.ok (some "t"), username := Except.ok (some "u"),
        selectedRepo := Except.ok (some "u/r"), isRepo := Except.ok true,
        cloneRes := Except.ok ⟨true, none, none⟩,
        pullRes := Except.ok ⟨false, none, some "Fetch failed: timeout"⟩,
        pushRes := Except.ok ⟨true, none, none⟩ }).1
      "/r" ⟨true, some "Pushed successfully", none⟩
      ⟨false, none, some "Fetch failed: timeout"⟩ rfl rfl rfl rfl rfl rfl,
    (sync_pull_failure_aborts
      { repoRoot := some "/r", username := some "u", token := some "t",
        pushAt := fun _ => Except.ok ⟨true, some "Pushed successfully", none⟩,
        pullRes := Except.ok ⟨false, none, some "Fetch failed: timeout"⟩ }
      { token := Except.ok (some "t"), username := Except.ok (some "u"),
        selectedRepo := Except.ok (some "u/r"), isRepo := Except.ok true,
        cloneRes := Except.ok ⟨true, none, none⟩,
        pullRes := Except.ok ⟨false, none, some "Fetch failed: timeout"⟩,
        pushRes := Except.ok ⟨true, none, none⟩ }).2
      "t" "u" "u/r" ⟨false, none, some "Fetch failed: timeout"⟩
      rfl rfl rfl rfl rfl rfl rfl rfl rfl⟩

/-- Claim C10: the native push performs the remote network push
unconditionally — when staging finds no changes, no commit is created yet
a push of the current branch to the same-named remote branch is still
attempted, and the "Nothing to push" success only means no new commit was
made, not that the push was skipped. -/
theorem push_network_push_unconditional (p : PushPrims) (s : RepoState)
    (hOpen : p.openOk = true) (hAdd : p.addOk = true)
    (hClean : s.statusEntries = [])
    (hRemote : p.remoteLookupOk = true) (hHead : p.headOk = true)
    (hBranch : p.branchNameOk = true) :
    PrimCall.commit ∉ (push p s).2.2 ∧
    PrimCall.pushCall ("refs/heads/" ++ p.branchName ++ ":refs/heads/" ++ p.branchName)
      ∈ (push p s).2.2 ∧
    (p.pushOk = true → (push p s).1 = ⟨true, some "Nothing to push", none⟩) := by
  have hchg : (p.statusOk && !s.statusEntries.isEmpty) = false := by
    simp [hClean]
  by_cases hp : p.pushOk = true
  · have hres : push p s =
        (⟨true, some "Nothing to push", none⟩, s,
          [PrimCall.pushCall
            ("refs/heads/" ++ p.branchName ++ ":refs/heads/" ++ p.branchName)]) := by
      simp only [push, pushTail, hOpen, hAdd, hchg, hRemote, hHead, hBranch, hp,
        Bool.not_true, ite_false]
      simp
    rw [hres]
    simp
  · have hres : push p s =
        (⟨false, none, some ("Push failed: " ++ p.gitErr)⟩, s,
          [PrimCall.pushCall
            ("refs/heads/" ++ p.branchName ++ ":refs/heads/" ++ p.branchName)]) := by
      simp only [push, pushTail, hOpen, hAdd, hchg, hRemote, hHead, hBranch, hp,
        Bool.not_true, ite_false]
      simp [hp]
    rw [hres]
    simp
    exact Bool.eq_false_iff.mpr hp

/-- Witness for `push_network_push_unconditional` at a concrete clean
state: the push call is in the trace and the result is the
"Nothing to push" success. -/
theorem push_network_push_unconditional_witness :
    PrimCall.pushCall "refs/heads/main:refs/heads/main" ∈
      (push
        { openOk := true, openErr := "", addOk := true, addErr := "",
          statusOk := true, commitRun := fun s => Except.ok s,
          remoteLookupOk := true, headOk := true, branchNameOk := true,
          branchName := "main", pushOk := true, gitErr := "e" }
        ⟨"aaaaaaa1", [("f", "x")], []⟩).2.2 ∧
    (push
        { openOk := true, openErr := "", addOk := true, addErr := "",
          statusOk := true, commitRun := fun s => Except.ok s,
          remoteLookupOk := true, headOk := true, branchNameOk := true,
          branchName := "main", pushOk := true, gitErr := "e" }
        ⟨"aaaaaaa1", [("f", "x")], []⟩).1 = ⟨true, some "Nothing to push", none⟩ := by
  have h := push_network_push_unconditional
    { openOk := true, openErr := "", addOk := true, addErr := "",
      statusOk := true, commitRun := fun s => Except.ok s,
      remoteLookupOk := true, headOk := true, branchNameOk := true,
      branchName := "main", pushOk := true, gitErr := "e" }
    ⟨"aaaaaaa1", [("f", "x")], []⟩ rfl rfl rfl rfl rfl rfl
  exact ⟨h.2.1, h.2.2 rfl⟩

/-- If no candidate prefix up to index `i` contains the metadata store,
the descending search returns `none`. -/
theorem findFrom_eq_none (g : List String → Bool) (parts : List String) (i : Nat)
    (h : ∀ j, j ≤ i → g (parts.take j) = false) : findFrom g parts i = none := by
  induction i with
  | zero =>
      have h0 : g [] = false := by simpa using h 0 (Nat.le_refl 0)
      simp [findFrom, h0]
  | succ n ih =>
      simp only [findFrom, h (n + 1) (Nat.le_refl _), ite_false]
      simp only [Bool.false_eq_true, if_false]
      exact ih fun j hj => h j (Nat.le_trans hj (Nat.le_succ n))

/-- If some candidate prefix up to index `i` contains the metadata store,
the descending search returns the deepest such prefix. -/
theorem findFrom_deepest (g : List String → Bool) (parts : List String) (i j : Nat)
    (hj : j ≤ i) (hg : g (parts.take j) = true) :
    ∃ k, j ≤ k ∧ k ≤ i ∧ g (parts.take k) = true ∧
      (∀ m, k < m → m ≤ i → g (parts.take m) = false) ∧
      findFrom g parts i = some (renderRoot (parts.take k)) := by
  induction i with
  | zero =>
      have hj0 : j = 0 := Nat.le_zero.mp hj
      subst hj0
      refine ⟨0, Nat.le_refl 0, Nat.le_refl 0, hg, ?_, ?_⟩
      · intro m hm1 hm2
        omega
      · simp at hg
        simp [findFrom, hg]
  | succ n ih =>
      by_cases h : g (parts.take (n + 1)) = true
      · refine ⟨n + 1, hj, Nat.le_refl _, h, ?_, ?_⟩
        · intro m hm1 hm2
          omega
        · simp [findFrom, h]
      · have hne : j ≠ n + 1 := by
          intro he
          exact h (he ▸ hg)
        have hj' : j ≤ n := by omega
        obtain ⟨k, h1, h2, h3, h4, h5⟩ := ih hj'
        refine ⟨k, h1, Nat.le_trans h2 (Nat.le_succ n), h3, ?_, ?_⟩
        · intro m hm1 hm2
          by_cases hmn : m = n + 1
          · subst hmn
            exact Bool.eq_false_iff.mpr (fun hc => h hc)
          · exact h4 m hm1 (by omega)
        · simp only [findFrom]
          simp only [Bool.eq_false_iff.mpr (fun hc => h hc), Bool.false_eq_true,
            if_false]
          exact h5

/-- Claim C8: on an input path whose leaf is a file (so the leaf itself
cannot contain a repository metadata directory, `hLeaf`),
`findGitRepoRoot` returns the nearest (deepest) qualifying ancestor
prefix — a strictly proper ancestor, never the leaf — and returns `none`
(absence, not an error) when no candidate, the base directory included,
qualifies. -/
theorem findGitRepoRoot_nearest_ancestor (g : List String → Bool) (path : String)
    (hLeaf : g (splitPath path) = false) :
    ((∀ i, i ≤ (splitPath path).length → g ((splitPath path).take i) = false) →
      findGitRepoRoot g path = none) ∧
    (∀ j, j ≤ (splitPath path).length → g ((splitPath path).take j) = true →
      ∃ k, k < (splitPath path).length ∧ g ((splitPath path).take k) = true ∧
        (∀ m, k < m → m ≤ (splitPath path).length →
          g ((splitPath path).take m) = false) ∧
        findGitRepoRoot g path = some (renderRoot ((splitPath path).take k))) := by
  constructor
  · intro h
    exact findFrom_eq_none g (splitPath path) (splitPath path).length h
  · intro j hj hg
    obtain ⟨k, h1, h2, h3, h4, h5⟩ :=
      findFrom_deepest g (splitPath path) (splitPath path).length j hj hg
    have hkne : k ≠ (splitPath path).length := by
      intro he
      rw [he, List.take_length] at h3
      rw [h3] at hLeaf
      simp at hLeaf
    exact ⟨k, Nat.lt_of_le_of_ne h2 hkne, h3, h4, h5⟩

/-- Witness for `findGitRepoRoot_nearest_ancestor`: for the file path
"a/b/c.md" in a tree where only the directory "a" is a repository root,
the resolver returns the proper ancestor "/a". -/
theorem findGitRepoRoot_nearest_ancestor_witness :
    ∃ k, k < (splitPath "a/b/c.md").length ∧
      (fun l => decide (l = ["a"])) ((splitPath "a/b/c.md").take k) = true ∧
      (∀ m, k < m → m ≤ (splitPath "a/b/c.md").length →
        (fun l => decide (l = ["a"])) ((splitPath "a/b/c.md").take m) = false) ∧
      findGitRepoRoot (fun l => decide (l = ["a"])) "a/b/c.md" =
        some (renderRoot ((splitPath "a/b/c.md").take k)) :=
  (findGitRepoRoot_nearest_ancestor (fun l => decide (l = ["a"])) "a/b/c.md"
    (by decide)).2 1 (by decide) (by decide)

/-- Every normally-returned result of the `performSync` body ends its log
in a classified terminal entry: an error entry on failure, an info entry
on success. -/
theorem performSyncBody_ok_shape (q : PsPrims) (r : PsResult) (tr : List PsCall)
    (h : performSyncBody q = Except.ok (r, tr)) :
    (r.success = false →
      ∃ l, r.logs.getLast? = some l ∧ l.operation = LogOp.error ∧
        l.success = some false) ∧
    (r.success = true →
      ∃ l, r.logs.getLast? = some l ∧ l.operation = LogOp.info ∧
        l.success = some true) := by
  unfold performSyncBody at h
  repeat' split at h
  all_goals simp_all [List.getLast?_concat]
  all_goals obtain ⟨h1, h2⟩ := by simpa using h
  all_goals subst h1
  all_goals constructor <;> intro hs <;> simp_all [List.getLast?]

/-- Claim C9: failures are never propagated out of `performSync` as
exceptions — any exception thrown by the body is converted by the catch
into the single returned result, carrying the log accumulated so far plus
a final error entry and the error detail; and every call returns exactly
one terminal result whose log ends in a classified entry (error on
failure, info on success). -/
theorem performSync_no_exception_escape (q : PsPrims) :
    (∀ e logs tr, performSyncBody q = Except.error (e, logs, tr) →
      performSyncRun q =
        ({ success := false,
           logs := logs ++ [⟨LogOp.error, "Unexpected error: " ++ e, some false⟩],
           error := some e }, tr)) ∧
    (∃ r tr, performSyncRun q = (r, tr) ∧
      (r.success = false →
        ∃ l, r.logs.getLast? = some l ∧ l.operation = LogOp.error ∧
          l.success = some false) ∧
      (r.success = true →
        ∃ l, r.logs.getLast? = some l ∧ l.operation = LogOp.info ∧
          l.success = some true)) := by
  constructor
  · intro e logs tr h
    simp [performSyncRun, h]
  · rcases hb : performSyncBody q with ⟨e, logs, tr⟩ | ⟨r, tr⟩
    · have hr : performSyncRun q =
          ({ success := false,
             logs := logs ++ [⟨LogOp.error, "Unexpected error: " ++ e, some false⟩],
             error := some e }, tr) := by
        simp [performSyncRun, hb]
      refine ⟨_, tr, hr, ?_, ?_⟩
      · intro _
        exact ⟨⟨LogOp.error, "Unexpected error: " ++ e, some false⟩,
          by simp [List.getLast?_concat], rfl, rfl⟩
      · intro hs
        simp at hs
    · exact ⟨r, tr, by simp [performSyncRun, hb],
        (performSyncBody_ok_shape q r tr hb).1,
        (performSyncBody_ok_shape q r tr hb).2⟩

/-- Witness for `performSync_no_exception_escape`: a pull that throws is
caught and surfaced as a returned failure result with the error logged. -/
theorem performSync_no_exception_escape_witness :
    performSyncRun
      { token := Except.ok (some "t"), username := Except.ok (some "u"),
        selectedRepo := Except.ok (some "u/r"), isRepo := Except.ok true,
        cloneRes := Except.ok ⟨true, none, none⟩,
        pullRes := Except.error "socket closed",
        pushRes := Except.ok ⟨true, none, none⟩ } =
      ({ success := false,
         logs := [⟨LogOp.fetch, "Fetching and updating from remote...", none⟩,
                  ⟨LogOp.error, "Unexpected error: socket closed", some false⟩],
         error := some "socket closed" }, [PsCall.isRepo, PsCall.pull]) :=
  (performSync_no_exception_escape
    { token := Except.ok (some "t"), username := Except.ok (some "u"),
      selectedRepo := Except.ok (some "u/r"), isRepo := Except.ok true,
      cloneRes := Except.ok ⟨true, none, none⟩,
      pullRes := Except.error "socket closed",
      pushRes := Except.ok ⟨true, none, none⟩ }).1
    "socket closed"
    [⟨LogOp.fetch, "Fetching and updating from remote...", none⟩]
    [PsCall.isRepo, PsCall.pull] rfl

end LifeDB
